import Mathlib

/-!
Verification development for the python-est repository.

The definitions below are shallow embeddings of the Python source:

* `EstHandler` — the protocol driver `src/python_est/core/est_handler.py`
  (`_auth_check`, `_get_process`, `_cacerts_split`, the chunked-body decoder
  of `do_POST`).
* `OpensslCa` — the local signing backend
  `src/python_est/handlers/openssl_ca_handler_fixed.py` (extension assembly
  of `enroll`).
* `Certifier` — the external polling backend
  `src/python_est/handlers/certifier_ca_handler.py` (`_loop_poll`,
  `_request_poll`, `_pem_cert_chain_generate`, `poll`, the tail of `enroll`).
* `Policy` — the CSR whitelist/blacklist policy engine; the implementing
  module (`examples/ca_handler/openssl_ca_handler.py`) is not part of the
  sources, only its unit tests are, so these definitions are modelled from
  the specification text.
* `Xca` — the embedded database backend's validity resolution; the
  implementing module (`examples/ca_handler/xca_ca_handler.py`) is likewise
  absent, so it is modelled from the specification text.

HTTP fetches performed by the external polling backend are modelled by a
`World : String → CertRec` function mapping a URL to the JSON record the
server answers with; loops that the Python code drives off the network are
given explicit fuel (a run of the Python loop that terminates corresponds
to a sufficiently large fuel value).
-/

namespace EstHandler

/-- The identity material of a TLS session as seen by the protocol driver:
whether `connection.session.srpUsername` is set (a password/SRP identity)
and whether `connection.session.clientCertChain` is set (a client
certificate identity).  Python tests these fields for truthiness only. -/
structure Session where
  srpUsername : Bool
  clientCertChain : Bool
  deriving DecidableEq, Repr

/-- Python's `str.startswith`, on the character data of the strings. -/
def path_startswith (s pre : String) : Bool :=
  pre.data.isPrefixOf s.data

/-- `ESTSrvHandler._auth_check` (est_handler.py lines 63-85): bootstrap
paths (`/.well-known/est/bootstrap` or anything starting with
`/bootstrap`) are authenticated exactly when the session has an SRP
username; every other path is authenticated when the session has a client
certificate chain or an SRP username. -/
def auth_check (path : String) (s : Session) : Bool :=
  if path == "/.well-known/est/bootstrap" || path_startswith path "/bootstrap" then
    s.srpUsername
  else
    s.clientCertChain || s.srpUsername

/-- Outcome of `_get_process`: status code, content type, and body. -/
structure GetResult where
  code : Nat
  contentType : String
  content : Option String
  deriving DecidableEq, Repr

/-- The fixed HTML login page returned by `_bootstrap_page_get`
(est_handler.py lines 242-291); its exact text is irrelevant to the claims,
only that it does not depend on the session. -/
def bootstrap_page : String := "EST Bootstrap Login page"

/-- `ESTSrvHandler._get_process` (est_handler.py lines 360-391).  The
session is passed in (it is reachable from `self`) to record that the GET
path performs no authentication check; `caPkcs7` models the value
`_cacerts_get()` obtains from the CA backend (`none` when the handler
returned nothing). -/
def get_process (_s : Session) (path : String) (caPkcs7 : Option String) : GetResult :=
  if path == "/.well-known/est/cacerts" then
    match caPkcs7 with
    | some certs => { code := 200, contentType := "application/pkcs7-mime", content := some certs }
    | none => { code := 500, contentType := "text/html", content := none }
  else if path == "/.well-known/est/bootstrap" || path == "/bootstrap" then
    { code := 200, contentType := "text/html", content := some bootstrap_page }
  else
    { code := 400, contentType := "text/html", content := some "An unknown error has occured." }

/-- The line `-----END CERTIFICATE-----` that closes a PEM certificate,
as character data. -/
def end_marker : List Char := "-----END CERTIFICATE-----".data

/-- Python's `'-----END CERTIFICATE-----' in line` membership test:
the marker occurs as a contiguous substring of the line. -/
def is_end_line (l : List Char) : Bool :=
  decide (end_marker <:+: l)

/-- The accumulation loop of `ESTSrvHandler._cacerts_split`
(est_handler.py lines 87-99).  The input is the `splitlines(True)` view of
the PEM text (each element one line, line terminator kept), so that
flattening the lines restores the exact text.  `acc` is the `cert`
accumulator of the Python loop. -/
def cacerts_split_go : List (List Char) → List Char → List (List Char)
  | [], _ => []
  | l :: rest, acc =>
      if is_end_line l then (acc ++ l) :: cacerts_split_go rest []
      else cacerts_split_go rest (acc ++ l)

/-- `ESTSrvHandler._cacerts_split`: `none` models `ca_certs = None` (and a
falsy empty string behaves as the empty line list). -/
def cacerts_split (ca_certs : Option (List (List Char))) : List (List Char) :=
  match ca_certs with
  | none => []
  | some lines => cacerts_split_go lines []

/-- The prefix of the line list up to and including its last line that
contains `-----END CERTIFICATE-----`; empty when no line does.  This is the
specification-side description that theorem `c9_cacerts_split` compares the
split against. -/
def upto_last_end : List (List Char) → List (List Char)
  | [] => []
  | l :: rest =>
      let r := upto_last_end rest
      if r.isEmpty then (if is_end_line l then [l] else []) else l :: r

/-- Value of a hexadecimal digit character. -/
def hex_val (c : Char) : Nat :=
  if '0' ≤ c ∧ c ≤ '9' then c.toNat - 48
  else if 'a' ≤ c ∧ c ≤ 'f' then c.toNat - 87
  else if 'A' ≤ c ∧ c ≤ 'F' then c.toNat - 70
  else 0

/-- Whether a character is a hexadecimal digit. -/
def is_hex_digit (c : Char) : Bool :=
  decide (('0' ≤ c ∧ c ≤ '9') ∨ ('a' ≤ c ∧ c ≤ 'f') ∨ ('A' ≤ c ∧ c ≤ 'F'))

/-- Python's `int(line, 16)` on the already-stripped size line, for the
unsigned hexadecimal numerals the chunked protocol uses; `none` models the
`ValueError` raised on an empty or non-hexadecimal line (in particular on
the empty string `readline` yields at end of input). -/
def int_hex (s : String) : Option Nat :=
  if s.data ≠ [] ∧ s.data.all is_hex_digit then
    some (s.data.foldl (fun a c => 16 * a + hex_val c) 0)
  else none

/-- The inner loop of the chunked decoder in `ESTSrvHandler.do_POST`
(est_handler.py lines 473-480): read stripped lines, appending each
non-empty one to the body, until an empty line (or end of input, where
`readline` yields `b''`) signals the chunk end.  Returns the accumulated
data and the remaining lines. -/
def chunk_inner : List String → String × List String
  | [] => ("", [])
  | l :: rest =>
      if l == "" then ("", rest)
      else
        let p := chunk_inner rest
        (l ++ p.1, p.2)

/-- The inner loop never leaves more lines than it was given. -/
theorem chunk_inner_length (xs : List String) : (chunk_inner xs).2.length ≤ xs.length := by
  induction xs with
  | nil => simp [chunk_inner]
  | cons l rest ih =>
      by_cases h : l == ""
      · simp [chunk_inner, h]
      · simp only [chunk_inner, h]
        exact Nat.le_succ_of_le ih

/-- The outer loop of the chunked decoder in `ESTSrvHandler.do_POST`
(est_handler.py lines 461-484): parse a hex size line, run the inner loop,
and stop after the inner loop of a zero-size chunk.  `none` models the
uncaught `ValueError` of `int(line, 16)` (malformed size line, or end of
input reached while a non-zero chunk was expected). -/
def chunk_outer : List String → String → Option String
  | [], _ => none
  | l :: rest, acc =>
      match int_hex l with
      | none => none
      | some n =>
          if n = 0 then some (acc ++ (chunk_inner rest).1)
          else chunk_outer (chunk_inner rest).2 (acc ++ (chunk_inner rest).1)
termination_by xs _ => xs.length
decreasing_by
  exact Nat.lt_succ_of_le (chunk_inner_length rest)

/-- Chunked-body decoding of `do_POST`, on the stripped-line view of the
request body. -/
def chunked_decode (lines : List String) : Option String :=
  chunk_outer lines ""

end EstHandler

namespace Certifier

/-- The JSON record a Certifier REST answer decodes to, restricted to the
keys `certifier_ca_handler.py` consumes: `status`, `message`,
`certificateBase64`, a `certificate` URL, an `href` URL, `issuer` and
`issuerCa` URLs, and the `certificates.active` URL of a CA record.  A field
is `none` when the key is absent. -/
structure CertRec where
  status : Option String := none
  message : Option String := none
  certificateBase64 : Option String := none
  certificate : Option String := none
  href : Option String := none
  issuer : Option String := none
  issuerCa : Option String := none
  certsActive : Option String := none
  deriving DecidableEq, Repr

/-- Python truthiness of the record seen as a dict of its modelled keys:
the empty dict is falsy. -/
def CertRec.isEmpty (r : CertRec) : Bool :=
  r.status.isNone && r.message.isNone && r.certificateBase64.isNone &&
  r.certificate.isNone && r.href.isNone && r.issuer.isNone &&
  r.issuerCa.isNone && r.certsActive.isNone

/-- The record of an empty JSON object. -/
def emptyRec : CertRec := {}

/-- The REST server as seen by the handler: every `requests.get(url).json()`
call is modelled as looking the URL up in this map. -/
def World : Type := String → CertRec

/-- One issuer dereference of `_pem_cert_chain_generate`
(certifier_ca_handler.py lines 229-240): fetch the issuer URL, then, when
the answer carries `certificates.active`, fetch that record; otherwise the
running record becomes the empty dict. -/
def follow_issuer (w : World) (url : String) : CertRec :=
  match (w url).certsActive with
  | some active_url => w active_url
  | none => emptyRec

/-- The parent record the chain loop continues with: `issuer` is preferred
over `issuerCa`; `none` when the record carries neither reference. -/
def next_rec (w : World) (r : CertRec) : Option CertRec :=
  match r.issuer with
  | some u => some (follow_issuer w u)
  | none =>
      match r.issuerCa with
      | some u => some (follow_issuer w u)
      | none => none

/-- The `pem_list` accumulation loop of `_pem_cert_chain_generate`
(certifier_ca_handler.py lines 218-243): while the running record has
`certificateBase64`, append it and move to the parent; stop when the bytes
are missing or when neither `issuer` nor `issuerCa` is present.  The fuel
argument bounds the number of loop iterations; a terminating run of the
Python loop is any evaluation whose fuel exceeds the chain length. -/
def pem_list (w : World) : Nat → CertRec → List String
  | 0, _ => []
  | fuel + 1, r =>
      match r.certificateBase64 with
      | none => []
      | some b =>
          match next_rec w r with
          | none => [b]
          | some r2 => b :: pem_list w fuel r2

/-- `textwrap.fill(s, 64)` on whitespace-free base64 payloads: split into
lines of 64 characters. -/
def chunks64 (l : List Char) : List (List Char) :=
  if l = [] then [] else l.take 64 :: chunks64 (l.drop 64)
termination_by l.length
decreasing_by
  simp only [List.length_drop]
  rename_i h
  have : l.length ≠ 0 := fun hl => h (List.length_eq_zero.mp hl)
  omega

/-- `textwrap.fill(cert, 64)` as used on `certificateBase64` content. -/
def fill64 (s : String) : String :=
  String.intercalate "\n" ((chunks64 s.data).map (fun c => String.mk c))

/-- One PEM block as formatted by the handler:
`-----BEGIN CERTIFICATE-----\n{fill64 cert}\n-----END CERTIFICATE-----\n`. -/
def pem_block (cert : String) : String :=
  "-----BEGIN CERTIFICATE-----\n" ++ fill64 cert ++ "\n-----END CERTIFICATE-----\n"

/-- The serialization loop of `_pem_cert_chain_generate` (lines 244-249):
starting from the empty string, append the PEM block of each list entry. -/
def pems_render (certs : List String) : String :=
  certs.foldl (fun acc cert => acc ++ pem_block cert) ""

/-- `CAhandler._pem_cert_chain_generate` (certifier_ca_handler.py lines
216-252): guard on the truthiness of `cert_dic`, build `pem_list`, and
render it; an empty list yields `None`. -/
def pem_cert_chain_generate (w : World) (fuel : Nat) (cert_dic : CertRec) : Option String :=
  let pl := if cert_dic.isEmpty then [] else pem_list w fuel cert_dic
  if pl.isEmpty then none else some (pems_render pl)

/-- Result quadruple of `_loop_poll`:
`(error, cert_bundle, cert_raw, poll_identifier)`. -/
abbrev LoopPollResult : Type :=
  Option String × Option String × Option String × Option String

/-- The `while cnt <= poll_cnt` loop of `CAhandler._loop_poll`
(certifier_ca_handler.py lines 181-208), by the number of remaining
iterations; `err` is the `error` variable carried across iterations.  On
`accepted` with a certificate record carrying `certificateBase64` the loop
breaks with the bundle and a cleared handle; on `rejected` it breaks with a
terminal error and a cleared handle; otherwise it stores a transient error
(or keeps the old one) and iterates.  When the budget runs out the current
error is returned with the handle still set to the request URL. -/
def loop_poll_go (w : World) (fuel : Nat) (url : String) :
    Nat → Option String → LoopPollResult
  | 0, err => (err, none, none, some url)
  | n + 1, err =>
      match (w url).status with
      | some s =>
          if s = "accepted" then
            match (w url).certificate with
            | some cert_url =>
                match (w cert_url).certificateBase64 with
                | some b =>
                    (none, pem_cert_chain_generate w fuel (w cert_url), some b, none)
                | none =>
                    loop_poll_go w fuel url n
                      (some "Request accepted but no certificateBase64 returned")
            | none =>
                loop_poll_go w fuel url n
                  (some "Request accepted but no certificate returned")
          else if s = "rejected" then
            (some "Request rejected by operator", none, none, none)
          else loop_poll_go w fuel url n err
      | none => loop_poll_go w fuel url n err

/-- `CAhandler._loop_poll` (certifier_ca_handler.py lines 169-214).
`polling_timeout` drives `poll_cnt = math.ceil(polling_timeout / 5)`; a
falsy request URL (`None` or the empty string) skips the loop and returns
the URL unchanged.  The outer `none` models the `UnboundLocalError` the
Python code raises when the loop body never runs (`poll_cnt = 0`) and the
unbound `poll_identifier` is returned. -/
def loop_poll (w : World) (fuel : Nat) (polling_timeout : Nat)
    (request_url : Option String) : Option LoopPollResult :=
  match request_url with
  | none => some (none, none, none, none)
  | some url =>
      if url = "" then some (none, none, none, some "")
      else
        let poll_cnt := (polling_timeout + 4) / 5
        if poll_cnt = 0 then none
        else some (loop_poll_go w fuel url poll_cnt none)

/-- Result quintuple of `_request_poll` and `poll`:
`(error, cert_bundle, cert_raw, poll_identifier, rejected)`. -/
abbrev RequestPollResult : Type :=
  Option String × Option String × Option String × Option String × Bool

/-- `CAhandler._request_poll` (certifier_ca_handler.py lines 254-295) for a
server that answers every fetch (the `except` arm is out of scope of the
modelled world).  Note that `poll_identifier` is set to the request URL at
line 261 and no branch of the status dispatch reassigns it. -/
def request_poll (w : World) (fuel : Nat) (request_url : String) : RequestPollResult :=
  match (w request_url).status with
  | none =>
      (some "\"status\" field not found in response.", none, none, some request_url, false)
  | some s =>
      if s = "accepted" then
        match (w request_url).certificate with
        | some cert_url =>
            match (w cert_url).certificateBase64 with
            | some b =>
                (none, pem_cert_chain_generate w fuel (w cert_url), some b,
                  some request_url, false)
            | none =>
                (some "certificateBase64 is missing in cert request response",
                  none, none, some request_url, false)
        | none =>
            (some "No certificate structure in request response", none, none,
              some request_url, false)
      else if s = "rejected" then
        (some "Request rejected by operator", none, none, some request_url, true)
      else
        (some ("Unknown request status: " ++ s), none, none, some request_url, false)

/-- Python truthiness of an optional string: `None` and `''` are falsy. -/
def pyTruthy (s : Option String) : Bool :=
  match s with
  | none => false
  | some t => !(t == "")

/-- `CAhandler.poll` (certifier_ca_handler.py lines 340-354): a truthy poll
identifier is polled via `_request_poll`; otherwise the certificate is
skipped and the initialized values are returned with the identifier
unchanged. -/
def poll (w : World) (fuel : Nat) (_cert_name : String)
    (poll_identifier : Option String) : RequestPollResult :=
  match poll_identifier with
  | some u => if u = "" then (none, none, none, some u, false) else request_poll w fuel u
  | none => (none, none, none, none, false)

/-- The tail of `CAhandler.enroll` (certifier_ca_handler.py lines 320-338)
after `cert_dic = self._cert_get(csr)`: the submission answer `cert_dic` is
taken as an input from the REST server.  Returns
`(error, cert, poll_identifier)`; the outer `none` propagates the
`UnboundLocalError` case of `_loop_poll`. -/
def enroll_from (w : World) (fuel : Nat) (polling_timeout : Nat) (cert_dic : CertRec) :
    Option (Option String × Option String × Option String) :=
  if cert_dic.isEmpty then some (some "internal error", none, none)
  else
    match cert_dic.status with
    | some _ =>
        match cert_dic.message with
        | some m => some (some m, none, none)
        | none => some (some "unknown errror", none, none)
    | none =>
        match cert_dic.certificateBase64 with
        | some b => some (none, some (pem_block b), none)
        | none =>
            match cert_dic.href with
            | some href =>
                match loop_poll w fuel polling_timeout (some href) with
                | none => none
                | some (error, _cb, _cr, pi) => some (error, none, pi)
            | none => some (some "no certificate information found", none, none)

/-- The chains `_pem_cert_chain_generate` can walk, as described by the
specification: starting from a record, gather `certificateBase64` payloads
leaf-first; a derivation stops exactly when the running record lacks
certificate bytes (`stop_nocert`), carries neither `issuer` nor `issuerCa`
(`stop_noissuer`), or hops to a parent that lacks certificate bytes
(`hop_dead`).  The `Nat` index counts the resolvable issuer hops: the hops
whose parent record again contributes certificate bytes. -/
inductive ChainSpec (w : World) : CertRec → List String → Nat → Prop
  | stop_nocert (r : CertRec) :
      r.certificateBase64 = none → ChainSpec w r [] 0
  | stop_noissuer (r : CertRec) (b : String) :
      r.certificateBase64 = some b → next_rec w r = none → ChainSpec w r [b] 0
  | hop_dead (r r2 : CertRec) (b : String) :
      r.certificateBase64 = some b → next_rec w r = some r2 →
      r2.certificateBase64 = none → ChainSpec w r [b] 0
  | hop (r r2 : CertRec) (b b2 : String) (bs : List String) (h : Nat) :
      r.certificateBase64 = some b → next_rec w r = some r2 →
      r2.certificateBase64 = some b2 → ChainSpec w r2 bs h →
      ChainSpec w r (b :: bs) (h + 1)

end Certifier

namespace OpensslCa

/-- An X.509 extension as handed to `crypto.X509Extension`: short name,
criticality flag, and value text (the `subject=`/`issuer=` anchors carry no
information relevant to the list structure). -/
structure X509Ext where
  name : String
  critical : Bool
  value : String
  deriving DecidableEq, Repr

/-- `default_extension_list` of `CAhandler.enroll`
(openssl_ca_handler_fixed.py lines 192-197). -/
def default_extension_list : List X509Ext :=
  [⟨"subjectKeyIdentifier", false, "hash"⟩,
   ⟨"authorityKeyIdentifier", false, "keyid:always"⟩,
   ⟨"basicConstraints", true, "CA:FALSE"⟩,
   ⟨"extendedKeyUsage", false, "clientAuth,serverAuth"⟩]

/-- The `keyUsage` extension appended when the CSR carries none
(openssl_ca_handler_fixed.py line 205). -/
def keyUsage_default : X509Ext :=
  ⟨"keyUsage", true, "digitalSignature,keyEncipherment"⟩

/-- The `ku_is_in` scan over the CSR's extensions
(openssl_ca_handler_fixed.py lines 200-203), as the fold the `for` loop
performs. -/
def ku_scan (req_extensions : List X509Ext) : Bool :=
  req_extensions.foldl
    (fun ku_is_in ext => if ext.name == "keyUsage" then true else ku_is_in) false

/-- The extension list of the certificate issued by `CAhandler.enroll`
(openssl_ca_handler_fixed.py lines 190-208): first
`cert.add_extensions(req.get_extensions())`, then
`cert.add_extensions(default_extension_list)` where the default list got
`keyUsage` appended exactly when the scan found none in the CSR. -/
def enroll_extensions (req_extensions : List X509Ext) : List X509Ext :=
  req_extensions ++
    (default_extension_list ++ (if ku_scan req_extensions then [] else [keyUsage_default]))

end OpensslCa

namespace Policy

/-- Modelled from the spec: the CSR policy engine
(`examples/ca_handler/openssl_ca_handler.py`, absent from the sources; only
its unit tests are present).  "A candidate beginning with literal `*`
(wildcard SAN) is compared against a pattern written as `\*`": a leading
escaped star in the pattern stands for the literal star character. -/
def unescape_star (pat : List Char) : List Char :=
  match pat with
  | '\\' :: '*' :: rest => '*' :: rest
  | _ => pat

/-- Modelled from the spec: "A pattern ending in `$` matches if the
candidate *ends with* the pattern's text; an unanchored pattern matches as
containment." -/
def pat_matches (cand : List Char) (pat : List Char) : Bool :=
  let p := unescape_star pat
  if p.getLast? = some '$' then decide (p.dropLast <:+ cand)
  else decide (p <:+: cand)

/-- Modelled from the spec: the single-list check `CAhandler._list_check`
exercised by tests 045-058 — a missing entry never matches, an empty list
accepts, otherwise some pattern must match. -/
def list_check (entry : Option (List Char)) (patterns : List (List Char)) : Bool :=
  match entry with
  | none => false
  | some cand => if patterns.isEmpty then true else patterns.any (pat_matches cand)

/-- Modelled from the spec: `CAhandler._string_wlbl_check` (tests 059-071)
— "blacklist match → immediate reject; else, if whitelist non-empty,
candidate must match at least one entry or the whole CSR is rejected;
empty whitelist accepts". -/
def string_wlbl_check (entry : List Char) (white_list black_list : List (List Char)) : Bool :=
  if black_list.any (pat_matches entry) then false
  else if white_list.isEmpty then true
  else white_list.any (pat_matches entry)

/-- Modelled from the spec: `CAhandler._csr_check` of the policy-enforcing
local backend — "Candidates are the CN then each DNS-type SAN; a CSR
lacking both is rejected", every candidate must pass the
whitelist/blacklist check. -/
def csr_check (cn : Option (List Char)) (dns_sans : List (List Char))
    (white_list black_list : List (List Char)) : Bool :=
  let candidates := (match cn with | some c => [c] | none => []) ++ dns_sans
  if candidates.isEmpty then false
  else candidates.all (fun c => string_wlbl_check c white_list black_list)

end Policy

namespace Xca

/-- Python's `int(s)` on the decimal numerals the template settings use;
`none` models the `ValueError` on anything else. -/
def pyint (s : String) : Option Nat :=
  if s.data ≠ [] ∧ s.data.all (fun c => c.isDigit) then
    some (s.data.foldl (fun a c => 10 * a + (c.toNat - 48)) 0)
  else none

/-- Modelled from the spec: the Embedded Database Backend's validity
resolution `CAhandler._validity_calculate`
(`examples/ca_handler/xca_ca_handler.py`, absent from the sources; only its
unit tests 117-121 are present) — "unit-type 0→days, 1→months×30,
2→years×365, applied to the unit-count setting; either setting missing →
default 365 days".  The arguments are the `validM` (unit-type) and `validN`
(unit-count) template settings, `none` when missing. -/
def validity_calculate (validM validN : Option String) : Option Nat :=
  match validM, validN with
  | some m, some n =>
      if m = "0" then pyint n
      else if m = "1" then (pyint n).map (fun d => d * 30)
      else if m = "2" then (pyint n).map (fun d => d * 365)
      else some 365
  | _, _ => some 365

end Xca

/-- A REST server that answers nothing meaningful: every URL maps to the
empty record. -/
def wEmpty : Certifier.World := fun _ => Certifier.emptyRec

/-- A REST server whose operator has rejected every request: every URL
answers `{"status": "rejected"}`. -/
def wRej : Certifier.World := fun _ => { status := some "rejected" }

/-- The submission answer of a CSR that entered the poll loop: a pending
record carrying only the poll location `href`. -/
def pendingRec : Certifier.CertRec := { href := some "http://ca/req1" }

/-- The active certificate record of the issuing CA in the two-level chain
world `w0`: a root record with certificate bytes and no issuer reference. -/
def rootRec : Certifier.CertRec := { certificateBase64 := some "ROOTB64" }

/-- A REST server holding a single issuing CA whose active certificate is
`rootRec`. -/
def w0 : Certifier.World := fun u =>
  if u = "http://ca/ca1" then { certsActive := some "http://ca/ca1/active" }
  else if u = "http://ca/ca1/active" then rootRec
  else Certifier.emptyRec

/-- A leaf certificate record pointing at the issuing CA of `w0` through
the `issuerCa` reference style. -/
def leaf0 : Certifier.CertRec :=
  { certificateBase64 := some "LEAFB64", issuerCa := some "http://ca/ca1" }

/-- C1: the protocol driver's authentication gate. CA-certificate
distribution (`GET /.well-known/est/cacerts`) is served identically for
every session, i.e. without any authentication check; a bootstrap path is
authenticated exactly when the session carries an SRP (password) identity,
so a client certificate alone never suffices; any other path is
authenticated exactly when the session carries an SRP identity or a client
certificate identity. -/
theorem c1_auth_policy (s s' : EstHandler.Session) (path : String) (ca : Option String) :
    EstHandler.get_process s "/.well-known/est/cacerts" ca
      = EstHandler.get_process s' "/.well-known/est/cacerts" ca
    ∧ ((path == "/.well-known/est/bootstrap" || EstHandler.path_startswith path "/bootstrap") = true →
        EstHandler.auth_check path s = s.srpUsername)
    ∧ ((path == "/.well-known/est/bootstrap" || EstHandler.path_startswith path "/bootstrap") = false →
        EstHandler.auth_check path s = (s.srpUsername || s.clientCertChain)) := by
  refine ⟨rfl, ?_, ?_⟩
  · intro h
    simp [EstHandler.auth_check, h]
  · intro h
    simp [EstHandler.auth_check, h, Bool.or_comm]

/-- C1 witness: at the bootstrap path a session holding only a client
certificate is rejected, while at the enroll path it is accepted. -/
theorem c1_auth_policy_witness :
    EstHandler.auth_check "/.well-known/est/bootstrap" ⟨false, true⟩ = false
    ∧ EstHandler.auth_check "/.well-known/est/simpleenroll" ⟨false, true⟩ = true := by
  have h1 := (c1_auth_policy ⟨false, true⟩ ⟨false, true⟩ "/.well-known/est/bootstrap" none).2.1
    (by decide)
  have h2 := (c1_auth_policy ⟨false, true⟩ ⟨false, true⟩ "/.well-known/est/simpleenroll" none).2.2
    (by decide)
  exact ⟨h1, h2⟩

/-- Unfolding equation of `upto_last_end` on a cons cell. -/
theorem upto_last_end_cons (l : List Char) (rest : List (List Char)) :
    EstHandler.upto_last_end (l :: rest)
      = if (EstHandler.upto_last_end rest).isEmpty then
          (if EstHandler.is_end_line l then [l] else [])
        else l :: EstHandler.upto_last_end rest := rfl

/-- Every element the split loop emits ends with an input line containing
the END-CERTIFICATE marker. -/
theorem cacerts_split_go_mem (lines : List (List Char)) :
    ∀ acc, ∀ e ∈ EstHandler.cacerts_split_go lines acc,
      ∃ l, EstHandler.is_end_line l = true ∧ l <:+ e := by
  induction lines with
  | nil => intro acc e he; simp [EstHandler.cacerts_split_go] at he
  | cons l rest ih =>
      intro acc e he
      by_cases h : EstHandler.is_end_line l
      · simp only [EstHandler.cacerts_split_go, if_pos h, List.mem_cons] at he
        rcases he with he | he
        · exact ⟨l, h, he ▸ List.suffix_append acc l⟩
        · exact ih [] e he
      · simp only [EstHandler.cacerts_split_go, if_neg h] at he
        exact ih (acc ++ l) e he

/-- The split loop emits one element per marker line. -/
theorem cacerts_split_go_length (lines : List (List Char)) :
    ∀ acc, (EstHandler.cacerts_split_go lines acc).length
      = (lines.filter EstHandler.is_end_line).length := by
  induction lines with
  | nil => intro acc; simp [EstHandler.cacerts_split_go]
  | cons l rest ih =>
      intro acc
      by_cases h : EstHandler.is_end_line l
      · simp [EstHandler.cacerts_split_go, h, ih []]
      · simp [EstHandler.cacerts_split_go, h, ih (acc ++ l)]

/-- `upto_last_end` is empty exactly when no line contains the marker. -/
theorem upto_last_end_eq_nil (lines : List (List Char)) :
    EstHandler.upto_last_end lines = [] ↔ lines.any EstHandler.is_end_line = false := by
  induction lines with
  | nil => simp [EstHandler.upto_last_end]
  | cons l rest ih =>
      by_cases hr : EstHandler.upto_last_end rest = []
      · have hany : rest.any EstHandler.is_end_line = false := ih.mp hr
        by_cases h : EstHandler.is_end_line l
        · simp [EstHandler.upto_last_end, hr, h, hany]
        · simp [EstHandler.upto_last_end, hr, h, hany]
      · have hany : rest.any EstHandler.is_end_line = true := by
          cases hx : rest.any EstHandler.is_end_line with
          | false => exact absurd (ih.mpr hx) hr
          | true => rfl
        have hre : (EstHandler.upto_last_end rest).isEmpty = false := by
          cases hx : EstHandler.upto_last_end rest with
          | nil => exact absurd hx hr
          | cons a t => rfl
        simp [EstHandler.upto_last_end, hre, hany]

/-- The flattened output of the split loop is the accumulator followed by
the flattened prefix of the input up to its last marker line (and empty
when no marker line exists). -/
theorem cacerts_split_go_flatten (lines : List (List Char)) :
    ∀ acc, (EstHandler.cacerts_split_go lines acc).flatten
      = if lines.any EstHandler.is_end_line then
          acc ++ (EstHandler.upto_last_end lines).flatten
        else [] := by
  induction lines with
  | nil => intro acc; simp [EstHandler.cacerts_split_go, EstHandler.upto_last_end]
  | cons l rest ih =>
      intro acc
      by_cases h : EstHandler.is_end_line l
      · cases hany : rest.any EstHandler.is_end_line with
        | true =>
            have hre : (EstHandler.upto_last_end rest).isEmpty = false := by
              cases hx : EstHandler.upto_last_end rest with
              | nil => exact absurd ((upto_last_end_eq_nil rest).mp hx) (by simp [hany])
              | cons a t => rfl
            simp [EstHandler.cacerts_split_go, h, ih [], hany,
              EstHandler.upto_last_end, hre, List.append_assoc]
        | false =>
            have hre : EstHandler.upto_last_end rest = [] := (upto_last_end_eq_nil rest).mpr hany
            simp [EstHandler.cacerts_split_go, h, ih [], hany, EstHandler.upto_last_end, hre]
      · cases hany : rest.any EstHandler.is_end_line with
        | true =>
            have hre : (EstHandler.upto_last_end rest).isEmpty = false := by
              cases hx : EstHandler.upto_last_end rest with
              | nil => exact absurd ((upto_last_end_eq_nil rest).mp hx) (by simp [hany])
              | cons a t => rfl
            simp [EstHandler.cacerts_split_go, h, ih (acc ++ l), hany,
              EstHandler.upto_last_end, hre, List.append_assoc]
        | false =>
            have hre : EstHandler.upto_last_end rest = [] := (upto_last_end_eq_nil rest).mpr hany
            simp [EstHandler.cacerts_split_go, h, ih (acc ++ l), hany,
              EstHandler.upto_last_end, hre]

/-- `upto_last_end` really is the prefix of the input up to and including
its last marker line. -/
theorem upto_last_end_append (u : List (List Char)) (l : List Char) (v : List (List Char)) :
    EstHandler.is_end_line l = true → (∀ x ∈ v, EstHandler.is_end_line x = false) →
    EstHandler.upto_last_end (u ++ l :: v) = u ++ [l] := by
  intro hl hv
  induction u with
  | nil =>
      have hva : v.any EstHandler.is_end_line = false := by
        cases hx : v.any EstHandler.is_end_line with
        | false => rfl
        | true =>
            rcases List.any_eq_true.mp hx with ⟨x, hx1, hx2⟩
            exact absurd hx2 (by simp [hv x hx1])
      have hvnil : EstHandler.upto_last_end v = [] := (upto_last_end_eq_nil v).mpr hva
      simp [EstHandler.upto_last_end, hvnil, hl]
  | cons a u' ih =>
      have hany : (u' ++ l :: v).any EstHandler.is_end_line = true :=
        List.any_eq_true.mpr ⟨l, List.mem_append_right u' (List.mem_cons_self l v), hl⟩
      have hne : EstHandler.upto_last_end (u' ++ l :: v) ≠ [] := by
        intro hx
        have := (upto_last_end_eq_nil _).mp hx
        rw [hany] at this
        exact Bool.true_eq_false.mp this
      have hre : (EstHandler.upto_last_end (u' ++ l :: v)).isEmpty = false := by
        cases hx : EstHandler.upto_last_end (u' ++ l :: v) with
        | nil => exact absurd hx hne
        | cons b t => rfl
      rw [List.cons_append, upto_last_end_cons, hre, ih]
      simp

/-- C9: the PEM-chain splitter `_cacerts_split`.  Every returned element
ends with a line containing `-----END CERTIFICATE-----`; the number of
elements equals the number of such lines; the concatenation of the
elements is the prefix of the input up to and including its last such line
(`upto_last_end`, characterized by the fourth conjunct), so trailing text
after that line is discarded; and a `None` input yields the empty list. -/
theorem c9_cacerts_split (lines : List (List Char)) :
    (∀ e ∈ EstHandler.cacerts_split (some lines), ∃ l, EstHandler.is_end_line l = true ∧ l <:+ e)
    ∧ (EstHandler.cacerts_split (some lines)).length
        = (lines.filter EstHandler.is_end_line).length
    ∧ (EstHandler.cacerts_split (some lines)).flatten
        = (EstHandler.upto_last_end lines).flatten
    ∧ (∀ u l v, lines = u ++ l :: v → EstHandler.is_end_line l = true →
        (∀ x ∈ v, EstHandler.is_end_line x = false) →
        EstHandler.upto_last_end lines = u ++ [l])
    ∧ EstHandler.cacerts_split none = [] := by
  refine ⟨fun e he => cacerts_split_go_mem lines [] e he,
    cacerts_split_go_length lines [], ?_, ?_, rfl⟩
  · show (EstHandler.cacerts_split_go lines []).flatten = _
    rw [cacerts_split_go_flatten lines []]
    cases hany : lines.any EstHandler.is_end_line with
    | true => simp
    | false => simp [(upto_last_end_eq_nil lines).mpr hany]
  · intro u l v hsplit hl hv
    rw [hsplit]
    exact upto_last_end_append u l v hl hv

/-- C9 witness: on the concrete three-line input, the theorem's last-marker
characterization and membership facts hold. -/
theorem c9_cacerts_split_witness :
    EstHandler.upto_last_end
        ["A\n".data, "-----END CERTIFICATE-----\n".data, "junk".data]
      = ["A\n".data, "-----END CERTIFICATE-----\n".data]
    ∧ (∃ l, EstHandler.is_end_line l = true
        ∧ l <:+ ("A\n".data ++ "-----END CERTIFICATE-----\n".data)) := by
  constructor
  · exact (c9_cacerts_split _).2.2.2.1 ["A\n".data] "-----END CERTIFICATE-----\n".data
      ["junk".data] rfl (by decide) (by decide)
  · exact (c9_cacerts_split
        ["A\n".data, "-----END CERTIFICATE-----\n".data, "junk".data]).1
      ("A\n".data ++ "-----END CERTIFICATE-----\n".data) (by decide)

/-- C3: the chunked-transfer decoder of `do_POST`.  On the request body
`5\r\nhello\r\n\r\n0\r\n\r\n` — the code's framing of the canonical
`5\r\nhello\r\n0\r\n\r\n` example, whose stripped-line view is
`["5", "hello", "", "0", ""]` — the reconstructed payload is exactly
`hello`; and for every chunked input, a size line parsing to zero makes the
outer loop return right after that chunk's inner loop, i.e. a zero-size
chunk always terminates the decoding. -/
theorem c3_chunked_decode :
    EstHandler.chunked_decode ["5", "hello", "", "0", ""] = some "hello"
    ∧ ∀ (l : String) (rest : List String) (acc : String),
        EstHandler.int_hex l = some 0 →
        EstHandler.chunk_outer (l :: rest) acc
          = some (acc ++ (EstHandler.chunk_inner rest).1) := by
  constructor
  · simp [EstHandler.chunked_decode, EstHandler.chunk_outer, EstHandler.chunk_inner,
      EstHandler.int_hex, EstHandler.is_hex_digit, EstHandler.hex_val]
  · intro l rest acc h
    rw [EstHandler.chunk_outer, h]
    simp

/-- C3 witness: a concrete zero-size chunk, with its size line parsing to
zero, ends the decoding immediately. -/
theorem c3_chunked_decode_witness :
    EstHandler.int_hex "0" = some 0
    ∧ EstHandler.chunk_outer ["0", "trailer", ""] "hello"
        = some ("hello" ++ (EstHandler.chunk_inner ["trailer", ""]).1) := by
  refine ⟨by decide, c3_chunked_decode.2 "0" ["trailer", ""] "hello" (by decide)⟩

/-- C2: blacklist dominance and empty-whitelist acceptance of the CSR
policy check.  A CN matching some blacklist pattern makes `csr_check`
reject whatever the whitelist holds; and when no candidate matches the
blacklist and the whitelist is empty, a CSR with a CN passes. -/
theorem c2_csr_policy (cn : List Char) (dns_sans white_list black_list : List (List Char)) :
    (black_list.any (Policy.pat_matches cn) = true →
      Policy.csr_check (some cn) dns_sans white_list black_list = false)
    ∧ ((∀ c ∈ cn :: dns_sans, black_list.any (Policy.pat_matches c) = false) →
        white_list = [] →
        Policy.csr_check (some cn) dns_sans white_list black_list = true) := by
  constructor
  · intro h
    simp only [Policy.csr_check, List.singleton_append, List.isEmpty_cons,
      Bool.false_eq_true, if_false, List.all_cons, Bool.and_eq_false_iff]
    left
    simp [Policy.string_wlbl_check, h]
  · intro hbl hwl
    simp only [Policy.csr_check, List.singleton_append, List.isEmpty_cons,
      Bool.false_eq_true, if_false, List.all_eq_true]
    intro c hc
    simp [Policy.string_wlbl_check, hbl c hc, hwl]

/-- C2 witness: CN `host.bar.foo` with blacklist `["bar.foo$"]` is rejected
even with a non-empty whitelist, and CN `x` passes against two empty
lists. -/
theorem c2_csr_policy_witness :
    Policy.csr_check (some "host.bar.foo".data) [] ["host.bar.foo".data] ["bar.foo$".data]
      = false
    ∧ Policy.csr_check (some "x".data) [] [] [] = true := by
  exact ⟨(c2_csr_policy "host.bar.foo".data [] ["host.bar.foo".data] ["bar.foo$".data]).1
      (by decide),
    (c2_csr_policy "x".data [] [] []).2 (by decide) rfl⟩

/-- C7: the pattern semantics of the policy engine's single-list check.  A
self-unescaped pattern ending in `$` matches exactly the candidates ending
with its text sans `$`; an unanchored one matches exactly the candidates
containing its text; a pattern written `\*` is matched as if it began with
the literal star, which is how a wildcard-SAN candidate is matched; and in
the concrete scenario, whitelist `["example.com$"]` with empty blacklist
accepts CN `device.example.com` and rejects CN `example.com.evil.net`. -/
theorem c7_pattern_semantics (cand pat rest : List Char) :
    (Policy.unescape_star pat = pat → pat.getLast? = some '$' →
        (Policy.pat_matches cand pat = true ↔ pat.dropLast <:+ cand))
    ∧ (Policy.unescape_star pat = pat → pat.getLast? ≠ some '$' →
        (Policy.pat_matches cand pat = true ↔ pat <:+: cand))
    ∧ Policy.pat_matches cand ('\\' :: '*' :: rest) = Policy.pat_matches cand ('*' :: rest)
    ∧ Policy.csr_check (some "device.example.com".data) [] ["example.com$".data] [] = true
    ∧ Policy.csr_check (some "example.com.evil.net".data) [] ["example.com$".data] [] = false := by
  refine ⟨?_, ?_, ?_, by decide, by decide⟩
  · intro hu hd
    simp [Policy.pat_matches, hu, hd]
  · intro hu hd
    simp [Policy.pat_matches, hu, hd]
  · have h1 : Policy.unescape_star ('\\' :: '*' :: rest) = '*' :: rest := rfl
    have h2 : Policy.unescape_star ('*' :: rest) = '*' :: rest := rfl
    simp [Policy.pat_matches, h1, h2]

/-- C7 witness: the anchored pattern `example.com$` matches
`device.example.com` and does not match `example.com.evil.net`. -/
theorem c7_pattern_semantics_witness :
    Policy.pat_matches "device.example.com".data "example.com$".data = true
    ∧ Policy.pat_matches "example.com.evil.net".data "example.com$".data = false := by
  constructor
  · exact ((c7_pattern_semantics "device.example.com".data "example.com$".data []).1
      (by decide) (by decide)).mpr (by decide)
  · rw [← Bool.not_eq_true]
    intro hm
    have hs := ((c7_pattern_semantics "example.com.evil.net".data "example.com$".data []).1
      (by decide) (by decide)).mp hm
    exact absurd hs (by decide)

/-- The `ku_is_in` fold of `enroll` is the any-scan for a `keyUsage`
extension, whatever it starts from. -/
theorem ku_scan_foldl (exts : List OpensslCa.X509Ext) :
    ∀ b : Bool,
      exts.foldl (fun ku_is_in ext => if ext.name == "keyUsage" then true else ku_is_in) b
        = (b || exts.any (fun e => e.name == "keyUsage")) := by
  induction exts with
  | nil => intro b; simp
  | cons e rest ih =>
      intro b
      rw [List.foldl_cons, ih]
      by_cases hp : e.name == "keyUsage"
      · simp [hp]
      · simp [hp]

/-- C5: extension assembly of the local backend's `enroll`.  The issued
certificate's extension list starts with the CSR's extensions verbatim,
followed by the four defaults (subject-key-identifier,
authority-key-identifier, basic-constraints CA:FALSE, extended-key-usage
clientAuth+serverAuth), and ends with the default keyUsage
(digitalSignature, keyEncipherment) exactly when the CSR carried no
keyUsage extension. -/
theorem c5_enroll_extensions (req_extensions : List OpensslCa.X509Ext) :
    OpensslCa.ku_scan req_extensions
        = req_extensions.any (fun e => e.name == "keyUsage")
    ∧ req_extensions <+: OpensslCa.enroll_extensions req_extensions
    ∧ (OpensslCa.enroll_extensions req_extensions).take req_extensions.length
        = req_extensions
    ∧ (OpensslCa.enroll_extensions req_extensions).drop req_extensions.length
        = OpensslCa.default_extension_list ++
            (if req_extensions.any (fun e => e.name == "keyUsage") then []
             else [OpensslCa.keyUsage_default]) := by
  have hscan : OpensslCa.ku_scan req_extensions
      = req_extensions.any (fun e => e.name == "keyUsage") := by
    simp only [OpensslCa.ku_scan]
    rw [ku_scan_foldl]
    simp
  refine ⟨hscan, ⟨_, rfl⟩, ?_, ?_⟩
  · simp [OpensslCa.enroll_extensions, List.take_left]
  · simp [OpensslCa.enroll_extensions, List.drop_left, hscan]

/-- C8: validity resolution of the Embedded Database Backend.  Unit-type 0
yields the parsed count in days, 1 multiplies it by 30, 2 by 365; a missing
unit-type or unit-count setting yields the default 365; and concretely
(0,"10") gives 10, (1,"10") gives 300, (2,"2") gives 730. -/
theorem c8_validity_resolution (m n : Option String) (s : String) (k : Nat) :
    (Xca.pyint s = some k →
        Xca.validity_calculate (some "0") (some s) = some k
        ∧ Xca.validity_calculate (some "1") (some s) = some (k * 30)
        ∧ Xca.validity_calculate (some "2") (some s) = some (k * 365))
    ∧ Xca.validity_calculate none n = some 365
    ∧ Xca.validity_calculate m none = some 365
    ∧ Xca.validity_calculate (some "0") (some "10") = some 10
    ∧ Xca.validity_calculate (some "1") (some "10") = some 300
    ∧ Xca.validity_calculate (some "2") (some "2") = some 730 := by
  refine ⟨?_, ?_, ?_, by decide, by decide, by decide⟩
  · intro h
    refine ⟨?_, ?_, ?_⟩
    · simp [Xca.validity_calculate, h]
    · simp [Xca.validity_calculate, h]
    · simp [Xca.validity_calculate, h]
  · cases n <;> rfl
  · cases m <;> rfl

/-- C8 witness: the count string `10` parses to 10 and the unit-type table
applies to it. -/
theorem c8_validity_resolution_witness :
    Xca.pyint "10" = some 10
    ∧ Xca.validity_calculate (some "0") (some "10") = some 10
    ∧ Xca.validity_calculate (some "1") (some "10") = some (10 * 30)
    ∧ Xca.validity_calculate (some "2") (some "10") = some (10 * 365) := by
  have h := (c8_validity_resolution none none "10" 10).1 (by decide)
  exact ⟨by decide, h.1, h.2.1, h.2.2⟩

/-- C10: the external backend's `poll` with a missing handle.  A falsy poll
identifier (`None` or the empty string) is skipped silently: no error, no
bundle, no raw certificate, the identifier returned unchanged, and
`rejected` false — whatever the server would answer. -/
theorem c10_poll_missing_handle (w : Certifier.World) (fuel : Nat) (cert_name : String)
    (pi : Option String) :
    Certifier.pyTruthy pi = false →
    Certifier.poll w fuel cert_name pi = (none, none, none, pi, false) := by
  intro h
  match pi with
  | none => rfl
  | some u =>
      have hu : u = "" := by
        by_cases hx : u = ""
        · exact hx
        · exact absurd h (by simp [Certifier.pyTruthy, hx])
      simp [Certifier.poll, hu]

/-- C10 witness: polling with a `None` identifier against the empty server
is a no-op. -/
theorem c10_poll_missing_handle_witness :
    Certifier.pyTruthy none = false
    ∧ Certifier.poll wEmpty 1 "cert_name" none = (none, none, none, none, false) :=
  ⟨rfl, c10_poll_missing_handle wEmpty 1 "cert_name" none rfl⟩

/-- One step of `_loop_poll`'s iteration on a rejected answer: the loop
breaks immediately with the terminal error and a cleared handle, whatever
error was carried. -/
theorem loop_poll_go_rejected (w : Certifier.World) (fuel : Nat) (url : String)
    (n : Nat) (err : Option String) :
    (w url).status = some "rejected" →
    Certifier.loop_poll_go w fuel url (n + 1) err
      = (some "Request rejected by operator", none, none, none) := by
  intro h
  simp [Certifier.loop_poll_go, h]

/-- C4 counterexample: against a server answering `{"status":"rejected"}`,
the externally-driven `_request_poll` reports the terminal error and sets
`rejected`, but returns the poll handle still set to the request URL — it
is not cleared to null as the claim states. -/
theorem c4_counterexample :
    Certifier.request_poll wRej 1 "http://ca/req1"
      = (some "Request rejected by operator", none, none, some "http://ca/req1", true)
    ∧ some "http://ca/req1" ≠ (none : Option String) := by
  exact ⟨by decide, by simp⟩

/-- C4 (amended): on a poll answer `{"status":"rejected"}`, `_loop_poll`
returns the terminal error with the handle cleared, so `enroll` on a CSR
that entered the poll loop returns the terminal error and a null handle;
the externally-driven `_request_poll` on the same answer reports the
terminal error with `rejected` set but returns the poll handle unchanged
(not cleared). -/
theorem c4_rejected_terminal (w : Certifier.World) (url : String) (fuel tmo : Nat)
    (cert_dic : Certifier.CertRec) :
    (w url).status = some "rejected" → url ≠ "" →
    (1 ≤ tmo →
        Certifier.loop_poll w fuel tmo (some url)
          = some (some "Request rejected by operator", none, none, none))
    ∧ (1 ≤ tmo → cert_dic.status = none → cert_dic.certificateBase64 = none →
        cert_dic.href = some url →
        Certifier.enroll_from w fuel tmo cert_dic
          = some (some "Request rejected by operator", none, none))
    ∧ Certifier.request_poll w fuel url
        = (some "Request rejected by operator", none, none, some url, true) := by
  intro hst hne
  have hloop : 1 ≤ tmo →
      Certifier.loop_poll w fuel tmo (some url)
        = some (some "Request rejected by operator", none, none, none) := by
    intro htmo
    have hcnt : (tmo + 4) / 5 ≠ 0 := by omega
    obtain ⟨m, hm⟩ := Nat.exists_eq_succ_of_ne_zero hcnt
    simp only [Certifier.loop_poll]
    rw [if_neg hne, if_neg hcnt, hm, loop_poll_go_rejected w fuel url m none hst]
  refine ⟨hloop, ?_, ?_⟩
  · intro htmo hsd hcb hhref
    have hemp : cert_dic.isEmpty = false := by
      simp [Certifier.CertRec.isEmpty, hhref]
    simp only [Certifier.enroll_from, hemp, Bool.false_eq_true, if_false, hsd, hcb, hhref,
      hloop htmo]
  · simp [Certifier.request_poll, hst]

/-- C4 witness: against the all-rejecting server, with the default
60-second polling timeout, the poll loop, `enroll` on a pending submission,
and `_request_poll` all behave as the amended claim states. -/
theorem c4_rejected_terminal_witness :
    Certifier.loop_poll wRej 1 60 (some "http://ca/req1")
      = some (some "Request rejected by operator", none, none, none)
    ∧ Certifier.enroll_from wRej 1 60 pendingRec
      = some (some "Request rejected by operator", none, none)
    ∧ Certifier.request_poll wRej 1 "http://ca/req1"
      = (some "Request rejected by operator", none, none, some "http://ca/req1", true) := by
  have h := c4_rejected_terminal wRej "http://ca/req1" 1 60 pendingRec rfl (by decide)
  exact ⟨h.1 (by decide), h.2.1 (by decide) rfl rfl rfl, h.2.2⟩

/-- The PEM serialization fold, started from any prefix. -/
theorem pems_render_foldl (certs : List String) :
    ∀ s : String,
      certs.foldl (fun acc cert => acc ++ Certifier.pem_block cert) s
        = s ++ Certifier.pems_render certs := by
  induction certs with
  | nil => intro s; simp [Certifier.pems_render]
  | cons c l ih =>
      intro s
      rw [List.foldl_cons, ih]
      have h2 : Certifier.pems_render (c :: l)
          = Certifier.pem_block c ++ Certifier.pems_render l := by
        simp only [Certifier.pems_render]
        rw [List.foldl_cons, ih, String.empty_append]
        rfl
      rw [h2, String.append_assoc]

/-- A chain derivation whose root record carries certificate bytes starts
with those bytes. -/
theorem chainspec_head (w : Certifier.World) (r : Certifier.CertRec) (bs : List String)
    (h : Nat) (b : String) :
    Certifier.ChainSpec w r bs h → r.certificateBase64 = some b →
    bs.head? = some b := by
  intro hc hcb
  cases hc with
  | stop_nocert r hnone => rw [hnone] at hcb; exact absurd hcb (by simp)
  | stop_noissuer r b' hcb' hnext =>
      rw [hcb'] at hcb
      simpa using hcb
  | hop_dead r r2 b' hcb' hnext hdead =>
      rw [hcb'] at hcb
      simpa using hcb
  | hop r r2 b' b2 bs h hcb' hnext hcb2 hchain =>
      rw [hcb'] at hcb
      simpa using hcb

/-- A chain starting from a record with certificate bytes has one PEM entry
plus one per resolvable issuer hop. -/
theorem chainspec_length (w : Certifier.World) (r : Certifier.CertRec) (bs : List String)
    (h : Nat) :
    Certifier.ChainSpec w r bs h →
    ∀ b, r.certificateBase64 = some b → bs.length = 1 + h := by
  intro hc
  induction hc with
  | stop_nocert r hnone =>
      intro b hcb
      rw [hnone] at hcb
      exact absurd hcb (by simp)
  | stop_noissuer r b' hcb' hnext => intro b hcb; simp
  | hop_dead r r2 b' hcb' hnext hdead => intro b hcb; simp
  | hop r r2 b' b2 bs h hcb' hnext hcb2 hchain ih =>
      intro b hcb
      have := ih b2 hcb2
      simp only [List.length_cons, this]
      omega

/-- The chain loop of `_pem_cert_chain_generate` computes exactly the chain
a derivation describes, for any fuel beyond the chain length. -/
theorem chainspec_pem_list (w : Certifier.World) (r : Certifier.CertRec) (bs : List String)
    (h : Nat) :
    Certifier.ChainSpec w r bs h →
    ∀ fuel, bs.length < fuel → Certifier.pem_list w fuel r = bs := by
  intro hc
  induction hc with
  | stop_nocert r hnone =>
      intro fuel hf
      cases fuel with
      | zero => omega
      | succ f => simp [Certifier.pem_list, hnone]
  | stop_noissuer r b' hcb' hnext =>
      intro fuel hf
      cases fuel with
      | zero => omega
      | succ f => simp [Certifier.pem_list, hcb', hnext]
  | hop_dead r r2 b' hcb' hnext hdead =>
      intro fuel hf
      cases fuel with
      | zero => omega
      | succ f =>
          cases f with
          | zero => simp at hf
          | succ g => simp [Certifier.pem_list, hcb', hnext, hdead]
  | hop r r2 b' b2 bs h hcb' hnext hcb2 hchain ih =>
      intro fuel hf
      cases fuel with
      | zero => omega
      | succ f =>
          have hlt : bs.length < f := by simp at hf; omega
          simp [Certifier.pem_list, hcb', hnext, ih f hlt]

/-- C6: chain reconstruction of the external backend.  For a chain
derivation from a leaf record that carries certificate bytes, and fuel
beyond the chain length, the loop of `_pem_cert_chain_generate` produces
exactly the derived PEM sequence; its length is 1 plus the number of
resolvable issuer hops; its first element is the leaf, and the rendered
file starts with the leaf's 64-column-wrapped PEM block.  The derivation
(`ChainSpec`) stops exactly when a record lacks certificate bytes or
carries neither an `issuer` nor an `issuerCa` reference. -/
theorem c6_pem_chain (w : Certifier.World) (r : Certifier.CertRec) (bs : List String)
    (h fuel : Nat) (b : String) :
    Certifier.ChainSpec w r bs h → r.certificateBase64 = some b → bs.length < fuel →
    Certifier.pem_list w fuel r = bs
    ∧ bs.length = 1 + h
    ∧ bs.head? = some b
    ∧ Certifier.pem_cert_chain_generate w fuel r
        = some (Certifier.pem_block b ++ Certifier.pems_render bs.tail) := by
  intro hc hcb hf
  have hlist := chainspec_pem_list w r bs h hc fuel hf
  have hlen := chainspec_length w r bs h hc b hcb
  have hhead := chainspec_head w r bs h b hc hcb
  refine ⟨hlist, hlen, hhead, ?_⟩
  obtain ⟨t, ht⟩ : ∃ t, bs = b :: t := by
    cases bs with
    | nil => simp at hhead
    | cons x t =>
        have hx : x = b := by simpa using hhead
        exact ⟨t, by rw [hx]⟩
  have hemp : r.isEmpty = false := by
    simp [Certifier.CertRec.isEmpty, hcb]
  rw [Certifier.pem_cert_chain_generate]
  simp only [hemp, Bool.false_eq_true, if_false, hlist, ht]
  rw [Certifier.pems_render, List.foldl_cons, String.empty_append, pems_render_foldl]
  simp

/-- C6 witness: in the two-record world `w0`, the chain from `leaf0` is
leaf-first, has length 1 + 1 resolvable hop, and renders with the leaf's
PEM block first. -/
theorem c6_pem_chain_witness :
    Certifier.pem_list w0 3 leaf0 = ["LEAFB64", "ROOTB64"]
    ∧ (["LEAFB64", "ROOTB64"] : List String).length = 1 + 1
    ∧ (["LEAFB64", "ROOTB64"] : List String).head? = some "LEAFB64"
    ∧ Certifier.pem_cert_chain_generate w0 3 leaf0
        = some (Certifier.pem_block "LEAFB64" ++ Certifier.pems_render ["ROOTB64"]) := by
  have hchain : Certifier.ChainSpec w0 leaf0 ["LEAFB64", "ROOTB64"] 1 := by
    refine Certifier.ChainSpec.hop leaf0 rootRec "LEAFB64" "ROOTB64" ["ROOTB64"] 0
      rfl (by decide) rfl ?_
    exact Certifier.ChainSpec.stop_noissuer rootRec "ROOTB64" rfl (by decide)
  exact c6_pem_chain w0 leaf0 ["LEAFB64", "ROOTB64"] 1 3 "LEAFB64" hchain rfl (by decide)
